import Mathlib

/-
Verification of the Safex frontend orchestration logic
(src/frontend/src/app/page.tsx) and of the report-attestation contract
documented for the backend. The React component state (the useState hooks of
the Home component) is embedded as an explicit SessionState record, and each
handler (handleSubmit, analyzeCode, runFuzzingTests, fetchRepoContents,
navigateToPath, navigateUp) becomes a state-transition function parameterised
by the outcome of its network call. Network outcomes are classified exactly as
the handlers classify them: fetch rejection, non-2xx status, empty body,
unparsable JSON body, and parsed JSON payload.
-/

namespace Safex

/-- Repository metadata as in the GitHubRepo interface of page.tsx. -/
structure GitHubRepo where
  id : Nat
  name : String
  full_name : String
  description : Option String
  html_url : String
  stargazers_count : Nat
  forks_count : Nat
  open_issues_count : Nat
  owner_login : String
  owner_avatar_url : Option String
  language : Option String
  created_at : String
  updated_at : String
deriving DecidableEq

/-- Response shape of POST /api/ingest-repo (RepoIngestionResponse). -/
structure RepoIngestionResponse where
  success : Bool
  message : String
  repo : Option GitHubRepo
  is_anchor_project : Option Bool
deriving DecidableEq

/-- One entry of a directory listing (GitHubContent). -/
structure GitHubContent where
  name : String
  path : String
  content_type : String
  size : Option Nat
  html_url : String
  download_url : Option String
  content : Option String
  encoding : Option String
  sha : String
  url : String
deriving DecidableEq

/-- Severity levels of a finding, exactly the three string literals of the
CodeBug interface. -/
inductive Severity where
  | low
  | medium
  | high
deriving DecidableEq

/-- One static-analysis finding (CodeBug). -/
structure CodeBug where
  bug : String
  line : Int
  severity : Severity
  fix : String
deriving DecidableEq

/-- Response shape of POST /api/analyze-code (CodeAnalysisResponse). -/
structure CodeAnalysisResponse where
  success : Bool
  message : String
  bugs : Option (List CodeBug)
deriving DecidableEq

/-- Response shape of POST /api/fuzz-test (FuzzingResponse). -/
structure FuzzingResponse where
  success : Bool
  message : String
  errors : Option (List String)
  test_file : Option String
  execution_time_ms : Option Nat
deriving DecidableEq

/-- Response shape of POST /api/repo-contents (RepoContentsResponse). -/
structure RepoContentsResponse where
  success : Bool
  message : String
  contents : Option (List GitHubContent)
  file_content : Option GitHubContent
  repo_url : String
  path : String
deriving DecidableEq

/-- The mutable state of the Home component: one field per useState hook, in
declaration order. -/
structure SessionState where
  repoUrl : String
  loading : Bool
  result : Option RepoIngestionResponse
  error : String
  currentPath : String
  contentsResult : Option RepoContentsResponse
  loadingContents : Bool
  analysisResult : Option CodeAnalysisResponse
  loadingAnalysis : Bool
  fuzzingResult : Option FuzzingResponse
  loadingFuzzing : Bool
  instructionName : String
  timeoutSeconds : Int
deriving DecidableEq

/-- The initial state of the component: useState initialisers of page.tsx. -/
def initialState : SessionState :=
  { repoUrl := ""
    loading := false
    result := none
    error := ""
    currentPath := ""
    contentsResult := none
    loadingContents := false
    analysisResult := none
    loadingAnalysis := false
    fuzzingResult := none
    loadingFuzzing := false
    instructionName := "increment"
    timeoutSeconds := 60 }

/-- JavaScript string disjunction a || b: the left operand unless it is the
empty string (the only falsy string). -/
def strOr (a b : String) : String :=
  if a = "" then b else a

/-- Outcome of the fetch performed by handleSubmit. The handler awaits
response.json() before checking response.ok, so the cases are: the fetch
itself rejected, the body failed to parse as JSON, or a parsed payload
together with the ok flag of the response. -/
inductive IngestNet where
  | netError (msg : String)
  | badJson (msg : String)
  | parsed (ok : Bool) (data : RepoIngestionResponse)
deriving DecidableEq

/-- Outcome of the fetch performed by fetchRepoContents (and analyzeCode,
which follows the same protocol): fetch rejection, non-2xx status with the
response text, 2xx with an empty or whitespace-only body, 2xx with an
unparsable body, or a parsed payload. -/
inductive ContentsNet where
  | netError (msg : String)
  | httpError (status : Nat) (bodyText : String)
  | emptyBody
  | badJson
  | parsed (data : RepoContentsResponse)
deriving DecidableEq

/-- Outcome of the fetch performed by analyzeCode. -/
inductive AnalyzeNet where
  | netError (msg : String)
  | httpError (status : Nat) (bodyText : String)
  | emptyBody
  | badJson
  | parsed (data : CodeAnalysisResponse)
deriving DecidableEq

/-- Outcome of the fetch performed by runFuzzingTests: on a non-2xx status the
handler reads the text and throws it; on a 2xx it awaits response.json(),
which can reject on an unparsable body. -/
inductive FuzzNet where
  | netError (msg : String)
  | httpError (status : Nat) (bodyText : String)
  | badJson (msg : String)
  | parsed (data : FuzzingResponse)
deriving DecidableEq

/-- The JSON body sent by runFuzzingTests to POST /api/fuzz-test. -/
structure FuzzRequest where
  repo_url : String
  instruction_name : String
  timeout_seconds : Int
deriving DecidableEq

/-- The synchronous prefix of handleSubmit, before the fetch is awaited:
setLoading(true), setError(empty), setResult(null), setContentsResult(null),
setCurrentPath(empty), setAnalysisResult(null). Note that setFuzzingResult is
not among them. -/
def handleSubmitReset (s : SessionState) : SessionState :=
  { s with loading := true, error := "", result := none, contentsResult := none,
           currentPath := "", analysisResult := none }

/-- The continuation of handleSubmit after its fetch resolves. The Bool
records whether fetchRepoContents was triggered, which happens only when the
response is ok and data.success and data.is_anchor_project are truthy.
setResult(data) runs before the response.ok check, so a non-2xx response with
a parseable body is stored in result. -/
def ingestFinish (s : SessionState) (r : IngestNet) : SessionState × Bool :=
  match r with
  | .netError msg =>
      ({ s with error := strOr msg "An error occurred", loading := false }, false)
  | .badJson msg =>
      ({ s with error := strOr msg "An error occurred", loading := false }, false)
  | .parsed ok data =>
      let s1 := { s with result := some data }
      if ok = false then
        ({ s1 with
            error := strOr (strOr data.message "Failed to ingest repository")
              "An error occurred",
            loading := false }, false)
      else if data.success = true ∧ data.is_anchor_project = some true then
        ({ s1 with loading := false }, true)
      else
        ({ s1 with loading := false }, false)

/-- The synchronous prefix of fetchRepoContents: setLoadingContents(true) and
setError(empty). -/
def contentsStart (s : SessionState) : SessionState :=
  { s with loadingContents := true, error := "" }

/-- The message of the Error thrown by fetchRepoContents for each failing
outcome, as it reaches the catch block. -/
def contentsThrownMsg : ContentsNet → String
  | .netError msg => msg
  | .httpError status text => strOr text ("Server error: " ++ toString status)
  | .emptyBody => "Empty response from server"
  | .badJson => "Invalid response format from server"
  | .parsed _ => ""

/-- The continuation of fetchRepoContents after its fetch resolves: on a
parsed body it commits the listing and the requested path; on any failure it
sets the session error and a fallback RepoContentsResponse and leaves
currentPath untouched. The repoUrl and path arguments are the ones captured
at the call site. -/
def contentsFinish (s : SessionState) (ru p : String) (r : ContentsNet) :
    SessionState :=
  match r with
  | .parsed data =>
      { s with contentsResult := some data, currentPath := p,
               loadingContents := false }
  | e =>
      let m := contentsThrownMsg e
      { s with
          error := strOr m "An error occurred while fetching contents",
          contentsResult := some
            { success := false,
              message := strOr m "Failed to fetch repository contents",
              contents := none, file_content := none,
              repo_url := ru, path := p },
          loadingContents := false }

/-- A full run of fetchRepoContents(ru, p) whose fetch resolves with r, with
no interleaving: start followed by finish. -/
def fetchRepoContents (s : SessionState) (ru p : String) (r : ContentsNet) :
    SessionState :=
  contentsFinish (contentsStart s) ru p r

/-- A full run of handleSubmit: reset, then the ingest continuation, and, when
the gate fires, the triggered fetchRepoContents(repoUrl, root) resolving with
cr. The Bool records whether the listing request was issued. -/
def handleSubmit (s : SessionState) (r : IngestNet) (cr : ContentsNet) :
    SessionState × Bool :=
  let si := ingestFinish (handleSubmitReset s) r
  if si.2 then (fetchRepoContents si.1 si.1.repoUrl "" cr, true) else si

/-- The message of the Error thrown by analyzeCode for each failing outcome. -/
def analyzeThrownMsg : AnalyzeNet → String
  | .netError msg => msg
  | .httpError status text => strOr text ("Server error: " ++ toString status)
  | .emptyBody => "Empty response from server"
  | .badJson => "Invalid response format from server"
  | .parsed _ => ""

/-- A full run of analyzeCode whose fetch resolves with r. The guard on an
empty repoUrl returns without touching state and without a request; the Bool
records whether the request was dispatched. On failure the catch block sets
the session error and stores a fallback CodeAnalysisResponse with success
false and an empty bug list. -/
def analyzeCodeRun (s : SessionState) (r : AnalyzeNet) : SessionState × Bool :=
  if s.repoUrl = "" then (s, false)
  else
    let s1 := { s with loadingAnalysis := true, error := "", analysisResult := none }
    match r with
    | .parsed data =>
        ({ s1 with analysisResult := some data, loadingAnalysis := false }, true)
    | e =>
        let m := analyzeThrownMsg e
        ({ s1 with
            error := strOr m "An error occurred during code analysis",
            analysisResult := some
              { success := false,
                message := strOr m "Failed to analyze code",
                bugs := some [] },
            loadingAnalysis := false }, true)

/-- The message of the Error thrown by runFuzzingTests for each failing
outcome. -/
def fuzzThrownMsg : FuzzNet → String
  | .netError msg => msg
  | .httpError _ text => strOr text "Failed to run fuzzing tests"
  | .badJson msg => msg
  | .parsed _ => ""

/-- A full run of runFuzzingTests whose fetch resolves with r. The only guard
before the fetch is the empty-repoUrl check; when it passes, the request
carrying repo_url, instruction_name and timeout_seconds is always dispatched,
and the issued request is returned alongside the new state. -/
def runFuzzingTests (s : SessionState) (r : FuzzNet) :
    SessionState × Option FuzzRequest :=
  if s.repoUrl = "" then (s, none)
  else
    let s1 := { s with loadingFuzzing := true, fuzzingResult := none, error := "" }
    let req : FuzzRequest :=
      { repo_url := s.repoUrl, instruction_name := s.instructionName,
        timeout_seconds := s.timeoutSeconds }
    match r with
    | .parsed data =>
        ({ s1 with fuzzingResult := some data, loadingFuzzing := false }, some req)
    | e =>
        ({ s1 with
            error := strOr (fuzzThrownMsg e) "Failed to run fuzzing tests",
            loadingFuzzing := false }, some req)

/-- Character-level model of the JavaScript split on the slash character, as
used by navigateUp: currentPath.split(slash). -/
def splitSlash : List Char → List (List Char)
  | [] => [[]]
  | c :: rest =>
    let r := splitSlash rest
    if c = '/' then [] :: r
    else
      match r with
      | [] => [[c]]
      | h :: t => (c :: h) :: t

/-- Model of the JavaScript join on the slash character. -/
def joinSlash : List (List Char) → List Char
  | [] => []
  | [seg] => seg
  | seg :: rest => seg ++ '/' :: joinSlash rest

/-- The parent path computed by navigateUp: split on slash, pop the last
segment, join on slash. -/
def dropLastSegment (p : String) : String :=
  String.mk (joinSlash ((splitSlash p.data).dropLast))

/-- The listing request issued by navigateUp: none when currentPath is empty
(the early return), otherwise the parent path. -/
def navigateUpRequest (s : SessionState) : Option String :=
  if s.currentPath = "" then none
  else some (dropLastSegment s.currentPath)

/-- A full run of navigateUp. At the root it returns before any request and
before any state change; otherwise it runs fetchRepoContents on the parent
path, with the issued path returned alongside the new state. -/
def clickUpStep (s : SessionState) (r : ContentsNet) :
    SessionState × Option String :=
  match navigateUpRequest s with
  | none => (s, none)
  | some pp => (fetchRepoContents s s.repoUrl pp r, some pp)

/-- Boundary operations that the handlers can dispatch over the network, with
the argument relevant to the gating and bound claims. -/
inductive Op where
  | ingestCall
  | listCall (p : String)
  | analyzeCall
  | fuzzCall (t : Int)
deriving DecidableEq

/-- User-interface events of one session, each carrying the network outcome of
the request it triggers (if any). Setter events model typing in the three
input fields. -/
inductive Event where
  | setRepoUrl (u : String)
  | setInstructionName (n : String)
  | setTimeoutSeconds (t : Int)
  | submit (r : IngestNet) (cr : ContentsNet)
  | clickAnalyze (r : AnalyzeNet)
  | clickFuzz (r : FuzzNet)
  | clickEntry (p : String) (r : ContentsNet)
  | clickUp (r : ContentsNet)
deriving DecidableEq

/-- Whether the analyze and fuzz controls are rendered. The result block is
guarded by result truthy and the controls inside it by
result.is_anchor_project truthy; but before reaching that guard the block
dereferences result.repo.name (page.tsx line 331), so when repo is absent the
render throws and no controls appear at all. The controls are therefore
available only when the stored result carries a repo and a true
is_anchor_project. -/
def anchorShown (s : SessionState) : Bool :=
  match s.result with
  | some res => res.repo.isSome && (res.is_anchor_project == some true)
  | none => false

/-- Whether the directory listing panel is rendered: the JSX guards it with
contentsResult truthy and contentsResult.contents truthy. -/
def contentsShown (s : SessionState) : Bool :=
  match s.contentsResult with
  | some cr => cr.contents.isSome
  | none => false

/-- Whether the rendered listing contains a clickable directory entry with the
given path (clicking a dir entry calls navigateToPath with the entry path). -/
def hasDirEntry (s : SessionState) (p : String) : Bool :=
  match s.contentsResult with
  | some cr =>
      match cr.contents with
      | some items => items.any (fun it => it.content_type == "dir" && it.path == p)
      | none => false
  | none => false

/-- One atomic UI step: the event fires only when the control that triggers it
is rendered (none otherwise), the handler runs to completion with its network
outcome, and the list of dispatched boundary operations is recorded. -/
def step (s : SessionState) (e : Event) : Option (SessionState × List Op) :=
  match e with
  | .setRepoUrl u => some ({ s with repoUrl := u }, [])
  | .setInstructionName n => some ({ s with instructionName := n }, [])
  | .setTimeoutSeconds t => some ({ s with timeoutSeconds := t }, [])
  | .submit r cr =>
      if s.repoUrl = "" then none
      else
        let sr := handleSubmit s r cr
        some (sr.1, if sr.2 then [Op.ingestCall, Op.listCall ""] else [Op.ingestCall])
  | .clickAnalyze r =>
      if anchorShown s then
        let ar := analyzeCodeRun s r
        some (ar.1, if ar.2 then [Op.analyzeCall] else [])
      else none
  | .clickFuzz r =>
      if anchorShown s then
        let fr := runFuzzingTests s r
        some (fr.1,
          match fr.2 with
          | some req => [Op.fuzzCall req.timeout_seconds]
          | none => [])
      else none
  | .clickEntry p r =>
      if contentsShown s && hasDirEntry s p then
        some (fetchRepoContents s s.repoUrl p r, [Op.listCall p])
      else none
  | .clickUp r =>
      if contentsShown s then
        let ur := clickUpStep s r
        some (ur.1,
          match ur.2 with
          | some pp => [Op.listCall pp]
          | none => [])
      else none

/-- The boundary operations dispatched by an event from a state: empty when
the event is not available there. -/
def stepOps (s : SessionState) (e : Event) : List Op :=
  match step s e with
  | some pr => pr.2
  | none => []

/-- States reachable from the initial component state by UI events. -/
inductive Reachable : SessionState → Prop
  | init : Reachable initialState
  | next (s s2 : SessionState) (e : Event) (ops : List Op) :
      Reachable s → step s e = some (s2, ops) → Reachable s2

/-- The stale-listing scenario of two overlapping browsing requests: the
request for pa is issued first, then the request for pb; the response rb for
pb resolves first and commits, then the response ra for pa commits. -/
def staleListScenario (s : SessionState) (ru pa pb : String)
    (ra rb : ContentsNet) : SessionState :=
  contentsFinish (contentsFinish (contentsStart (contentsStart s)) ru pb rb) ru pa ra

/-- Two to the thirty-second power, the modulus of 32-bit words. -/
def w32 : Nat := 4294967296

/-- Addition modulo two to the thirty-second power. -/
def add32 (a b : Nat) : Nat := (a + b) % w32

/-- Right rotation of a 32-bit word by n places. -/
def rotr32 (x n : Nat) : Nat := ((x >>> n) ||| (x <<< (32 - n))) % w32

/-- The big sigma-0 function of SHA-256. -/
def bigSigma0 (x : Nat) : Nat := rotr32 x 2 ^^^ rotr32 x 13 ^^^ rotr32 x 22

/-- The big sigma-1 function of SHA-256. -/
def bigSigma1 (x : Nat) : Nat := rotr32 x 6 ^^^ rotr32 x 11 ^^^ rotr32 x 25

/-- The small sigma-0 function of SHA-256. -/
def smallSigma0 (x : Nat) : Nat := rotr32 x 7 ^^^ rotr32 x 18 ^^^ (x >>> 3)

/-- The small sigma-1 function of SHA-256. -/
def smallSigma1 (x : Nat) : Nat := rotr32 x 17 ^^^ rotr32 x 19 ^^^ (x >>> 10)

/-- The 64 round constants of SHA-256, written in decimal. -/
def sha256K : List Nat :=
  [1116352408, 1899447441, 3049323471, 3921009573, 961987163, 1508970993,
   2453635748, 2870763221, 3624381080, 310598401, 607225278, 1426881987,
   1925078388, 2162078206, 2614888103, 3248222580, 3835390401, 4022224774,
   264347078, 604807628, 770255983, 1249150122, 1555081692, 1996064986,
   2554220882, 2821834349, 2952996808, 3210313671, 3336571891, 3584528711,
   113926993, 338241895, 666307205, 773529912, 1294757372, 1396182291,
   1695183700, 1986661051, 2177026350, 2456956037, 2730485921, 2820302411,
   3259730800, 3345764771, 3516065817, 3600352804, 4094571909, 275423344,
   430227734, 506948616, 659060556, 883997877, 958139571, 1322822218,
   1537002063, 1747873779, 1955562222, 2024104815, 2227730452, 2361852424,
   2428436474, 2756734187, 3204031479, 3329325298]

/-- The initial hash words of SHA-256, written in decimal. -/
def sha256H0 : List Nat :=
  [1779033703, 3144134277, 1013904242, 2773480762,
   1359893119, 2600822924, 528734635, 1541459225]

/-- SHA-256 padding of a byte sequence: a 0x80 byte, zeros up to 56 modulo 64,
and the bit length as 8 big-endian bytes. -/
def padMessage (msg : List Nat) : List Nat :=
  let L := msg.length
  msg ++ 0x80 :: List.replicate ((119 - (L % 64)) % 64) 0
      ++ (List.range 8).map (fun i => ((8 * L) >>> (56 - 8 * i)) % 256)

/-- The 64-byte blocks of a padded message. -/
def blocks (padded : List Nat) : List (List Nat) :=
  (List.range (padded.length / 64)).map (fun i => (padded.drop (64 * i)).take 64)

/-- The i-th big-endian 32-bit word of a 64-byte block. -/
def wordAt (blk : List Nat) (i : Nat) : Nat :=
  ((blk.getD (4 * i) 0) <<< 24) ||| ((blk.getD (4 * i + 1) 0) <<< 16) |||
    ((blk.getD (4 * i + 2) 0) <<< 8) ||| blk.getD (4 * i + 3) 0

/-- The 64-word message schedule of a block. -/
def schedule (blk : List Nat) : List Nat :=
  (List.range 48).foldl
    (fun w _ =>
      let i := w.length
      w ++ [(w.getD (i - 16) 0 + smallSigma0 (w.getD (i - 15) 0) + w.getD (i - 7) 0
              + smallSigma1 (w.getD (i - 2) 0)) % w32])
    ((List.range 16).map (wordAt blk))

/-- One round of the SHA-256 compression function on the eight working
variables. -/
def compressRound (st : List Nat) (wt kt : Nat) : List Nat :=
  match st with
  | [a, b, c, d, e, f, g, h] =>
    let s1 := bigSigma1 e
    let ch := (e &&& f) ^^^ ((e ^^^ 0xffffffff) &&& g)
    let temp1 := (h + s1 + ch + kt + wt) % w32
    let s0 := bigSigma0 a
    let maj := (a &&& b) ^^^ (a &&& c) ^^^ (b &&& c)
    let temp2 := (s0 + maj) % w32
    [(temp1 + temp2) % w32, a, b, c, (d + temp1) % w32, e, f, g]
  | st => st

/-- Compression of one block into the running hash words. -/
def compress (hs : List Nat) (blk : List Nat) : List Nat :=
  let w := schedule blk
  let final := (List.range 64).foldl
    (fun st t => compressRound st (w.getD t 0) (sha256K.getD t 0)) hs
  List.zipWith add32 hs final

/-- The four big-endian bytes of a 32-bit word. -/
def be4 (x : Nat) : List Nat :=
  [(x >>> 24) % 256, (x >>> 16) % 256, (x >>> 8) % 256, x % 256]

/-- SHA-256 of a byte sequence, as 32 bytes. -/
def sha256Bytes (msg : List Nat) : List Nat :=
  ((blocks (padMessage msg)).foldl compress sha256H0).foldr
    (fun x acc => be4 x ++ acc) []

/-- Two lowercase hexadecimal digits of one byte, using the standard digit
character of a value below sixteen. -/
def byteHex (b : Nat) : List Char :=
  [Nat.digitChar (b / 16), Nat.digitChar (b % 16)]

/-- SHA-256 of a byte sequence, as a lowercase hexadecimal string. -/
def sha256Hex (msg : List Nat) : String :=
  String.mk ((sha256Bytes msg).foldr (fun b acc => byteHex b ++ acc) [])

/-- The code points of an ASCII string as bytes. -/
def asciiBytes (s : String) : List Nat :=
  s.data.map (fun c => c.toNat)

/-- Response shape of POST /api/log-report as documented for the backend. -/
structure AttestationRecord where
  success : Bool
  message : String
  transaction_signature : String
  hash : String
deriving DecidableEq

/-- Modelled from the spec: the backend handler for POST /api/log-report is
not under src (only its documentation and test script are). Per the spec it
computes the SHA-256 content hash over the exact bytes of the submitted
report with no normalization, stores it on the ledger obtaining an opaque
transaction signature, and returns the hash as lowercase hexadecimal. The
ledger signature is an external input here. -/
def logReport (report_content : List Nat) (ledgerSig : String) :
    AttestationRecord :=
  { success := true
    message := "Report logged successfully"
    transaction_signature := ledgerSig
    hash := sha256Hex report_content }

set_option maxRecDepth 10000 in
/-- Validation of the SHA-256 model against the standard test vector for the
three-byte message abc. -/
theorem sha256Hex_abc :
    sha256Hex [0x61, 0x62, 0x63] =
      "ba7816bf8f01cfea414140de5dae2223b00361a396177a9cb410ff61f20015ad" := by
  decide

/-- Both failure branches and the success branch of ingestFinish leave the
fuzzing outcome untouched. -/
lemma ingestFinish_fuzzingResult (s : SessionState) (r : IngestNet) :
    (ingestFinish s r).1.fuzzingResult = s.fuzzingResult := by
  cases r with
  | netError msg => rfl
  | badJson msg => rfl
  | parsed ok data =>
      simp only [ingestFinish]
      split
      · rfl
      · split <;> rfl

/-- The ingest continuation never touches the directory listing slot. -/
lemma ingestFinish_contentsResult (s : SessionState) (r : IngestNet) :
    (ingestFinish s r).1.contentsResult = s.contentsResult := by
  cases r with
  | netError msg => rfl
  | badJson msg => rfl
  | parsed ok data =>
      simp only [ingestFinish]
      split
      · rfl
      · split <;> rfl

/-- When the ingest continuation triggers the listing fetch, the stored result
is the parsed payload that passed the gate: success true and is_anchor_project
true. -/
lemma ingestFinish_issued_result (s : SessionState) (r : IngestNet) :
    (ingestFinish s r).2 = true →
      ∃ data, (ingestFinish s r).1.result = some data ∧
        data.success = true ∧ data.is_anchor_project = some true := by
  cases r with
  | netError msg => intro h; cases h
  | badJson msg => intro h; cases h
  | parsed ok data =>
      simp only [ingestFinish]
      split
      · intro h; cases h
      · split
        · rename_i hok hgate
          intro _
          exact ⟨data, rfl, hgate.1, hgate.2⟩
        · intro h; cases h

/-- The listing commit never touches the ingestion result slot. -/
lemma contentsFinish_result (s : SessionState) (ru p : String) (r : ContentsNet) :
    (contentsFinish s ru p r).result = s.result := by
  cases r <;> rfl

/-- The listing commit never touches the fuzzing outcome. -/
lemma contentsFinish_fuzzingResult (s : SessionState) (ru p : String)
    (r : ContentsNet) :
    (contentsFinish s ru p r).fuzzingResult = s.fuzzingResult := by
  cases r <;> rfl

/-- A full run of fetchRepoContents never touches the ingestion result slot. -/
lemma fetchRepoContents_result (s : SessionState) (ru p : String)
    (r : ContentsNet) :
    (fetchRepoContents s ru p r).result = s.result := by
  cases r <;> rfl

/-- A full analyzeCode run never touches the ingestion result slot. -/
lemma analyzeCodeRun_result (s : SessionState) (r : AnalyzeNet) :
    (analyzeCodeRun s r).1.result = s.result := by
  by_cases h : s.repoUrl = ""
  · simp [analyzeCodeRun, h]
  · cases r <;> simp [analyzeCodeRun, h]

/-- A full analyzeCode run never touches the directory listing slot. -/
lemma analyzeCodeRun_contentsResult (s : SessionState) (r : AnalyzeNet) :
    (analyzeCodeRun s r).1.contentsResult = s.contentsResult := by
  by_cases h : s.repoUrl = ""
  · simp [analyzeCodeRun, h]
  · cases r <;> simp [analyzeCodeRun, h]

/-- A full runFuzzingTests run never touches the ingestion result slot. -/
lemma runFuzzingTests_result (s : SessionState) (r : FuzzNet) :
    (runFuzzingTests s r).1.result = s.result := by
  by_cases h : s.repoUrl = ""
  · simp [runFuzzingTests, h]
  · cases r <;> simp [runFuzzingTests, h]

/-- A full runFuzzingTests run never touches the directory listing slot. -/
lemma runFuzzingTests_contentsResult (s : SessionState) (r : FuzzNet) :
    (runFuzzingTests s r).1.contentsResult = s.contentsResult := by
  by_cases h : s.repoUrl = ""
  · simp [runFuzzingTests, h]
  · cases r <;> simp [runFuzzingTests, h]

/-- Session state about to run the fuzz operation with a timeout above the
documented bound. -/
def c1State : SessionState :=
  { initialState with repoUrl := "https://github.com/acme/vault",
                      timeoutSeconds := 200 }

/-- Session state about to run the fuzz operation with a timeout below the
documented bound. -/
def c1StateLow : SessionState :=
  { initialState with repoUrl := "https://github.com/acme/vault",
                      timeoutSeconds := 0 }

/-- C1: the claim requires runFuzzingTests with timeoutSeconds outside 1..120
and a non-empty repoUrl to be rejected by client-side validation before any
request to /api/fuzz-test is dispatched. The handler has no such validation
(its only pre-dispatch guard is the empty-repoUrl check): with timeoutSeconds
200, and likewise 0, the request is dispatched carrying the out-of-range
value. -/
theorem C1_out_of_range_timeout_dispatched :
    (runFuzzingTests c1State (FuzzNet.netError "x")).2 =
      some { repo_url := "https://github.com/acme/vault",
             instruction_name := "increment", timeout_seconds := 200 } ∧
    (120 : Int) < 200 ∧
    (runFuzzingTests c1StateLow (FuzzNet.netError "x")).2 =
      some { repo_url := "https://github.com/acme/vault",
             instruction_name := "increment", timeout_seconds := 0 } ∧
    (0 : Int) < 1 := by
  decide

/-- A fuzz outcome stored in the session before a fresh submission. -/
def c2Fuzz : FuzzingResponse :=
  { success := true, message := "Fuzzing completed", errors := some [],
    test_file := none, execution_time_ms := some 4200 }

/-- Session holding a fuzz outcome when a new repository is submitted. -/
def c2State : SessionState :=
  { initialState with repoUrl := "https://github.com/acme/vault",
                      fuzzingResult := some c2Fuzz }

/-- C2 counterexample: the claim says submitting a new RepositoryReference
clears the fuzz outcome among the derived state. It does not: after a full
handleSubmit run the previously stored fuzzingResult is still present. -/
theorem C2_counterexample :
    (handleSubmit c2State (IngestNet.netError "connection refused")
        ContentsNet.emptyBody).1.fuzzingResult = some c2Fuzz ∧
    some c2Fuzz ≠ (none : Option FuzzingResponse) := by
  decide

/-- C2 amended: the synchronous reset prefix of handleSubmit unconditionally
clears the directory listing, the current path, the Finding set, the pending
error and the stored ingestion result, but not the fuzz outcome, which also
survives the full submission flow whatever the network outcome. -/
theorem C2_submit_reset_amended :
    ∀ (s : SessionState) (r : IngestNet) (cr : ContentsNet),
    (handleSubmitReset s).contentsResult = none ∧
    (handleSubmitReset s).currentPath = "" ∧
    (handleSubmitReset s).analysisResult = none ∧
    (handleSubmitReset s).error = "" ∧
    (handleSubmitReset s).result = none ∧
    (handleSubmitReset s).fuzzingResult = s.fuzzingResult ∧
    (handleSubmit s r cr).1.fuzzingResult = s.fuzzingResult := by
  intro s r cr
  refine ⟨rfl, rfl, rfl, rfl, rfl, rfl, ?_⟩
  simp only [handleSubmit]
  split
  · unfold fetchRepoContents
    rw [contentsFinish_fuzzingResult]
    exact ingestFinish_fuzzingResult (handleSubmitReset s) r
  · exact ingestFinish_fuzzingResult (handleSubmitReset s) r

/-- A parsed listing for path a in the stale-response scenario. -/
def c4RespA : RepoContentsResponse :=
  { success := true, message := "ok", contents := some [],
    file_content := none, repo_url := "u", path := "a" }

/-- A parsed listing for path b in the stale-response scenario. -/
def c4RespB : RepoContentsResponse :=
  { success := true, message := "ok", contents := some [],
    file_content := none, repo_url := "u", path := "b" }

/-- C4 counterexample: list a is issued, then list b; the response for b
resolves first, then the stale response for a. The claim says the final
visible path is b; in the code the stale response overwrites and the final
committed currentPath is a. -/
theorem C4_counterexample :
    (staleListScenario initialState "u" "a" "b"
        (ContentsNet.parsed c4RespA) (ContentsNet.parsed c4RespB)).currentPath
      = "a" ∧
    ("a" : String) ≠ "b" := by
  decide

/-- C4 amended: fetchRepoContents carries no sequence stamp, so responses
commit in arrival order: when both responses parse, the one that resolves
last, even if it answers the earlier navigation, overwrites contentsResult
and currentPath. -/
theorem C4_last_arrival_wins :
    ∀ (s : SessionState) (ru pa pb : String) (da db : RepoContentsResponse),
    (staleListScenario s ru pa pb (ContentsNet.parsed da)
        (ContentsNet.parsed db)).currentPath = pa ∧
    (staleListScenario s ru pa pb (ContentsNet.parsed da)
        (ContentsNet.parsed db)).contentsResult = some da := by
  intro s ru pa pb da db
  exact ⟨rfl, rfl⟩

/-- A parseable non-2xx ingestion response body. -/
def c5Data : RepoIngestionResponse :=
  { success := false, message := "Repository not found", repo := none,
    is_anchor_project := none }

/-- Session submitting a repository whose ingestion returns a non-2xx
status. -/
def c5State : SessionState :=
  { initialState with repoUrl := "https://github.com/acme/missing" }

/-- C5 counterexample: the claim says a non-2xx ingestion response produces
only a session error and does not populate the result slot. setResult(data)
runs before the ok check, so a non-2xx response with a parseable JSON body is
stored in result, in addition to the session error. -/
theorem C5_counterexample :
    (handleSubmit c5State (IngestNet.parsed false c5Data)
        ContentsNet.emptyBody).1.result = some c5Data ∧
    some c5Data ≠ (none : Option RepoIngestionResponse) ∧
    (handleSubmit c5State (IngestNet.parsed false c5Data)
        ContentsNet.emptyBody).1.error = "Repository not found" := by
  decide

/-- C5 amended: a network or transport error of the ingestion fetch, and
likewise an unparsable response body, produce only the session-level error
and leave the result slot unpopulated; but a non-2xx response whose body
parses as JSON is stored into the result slot before the status check, in
addition to raising the session error. -/
theorem C5_transport_failure_keeps_result_empty :
    ∀ (s : SessionState) (m : String) (cr : ContentsNet),
    (handleSubmit s (IngestNet.netError m) cr).1.result = none ∧
    (handleSubmit s (IngestNet.netError m) cr).1.error =
      strOr m "An error occurred" ∧
    (handleSubmit s (IngestNet.badJson m) cr).1.result = none ∧
    (handleSubmit s (IngestNet.badJson m) cr).1.error =
      strOr m "An error occurred" := by
  intro s m cr
  exact ⟨rfl, rfl, rfl, rfl⟩

/-- C9: cross-sub-state frame conditions. A fuzz run, on its error paths as
on success, never clears or modifies the stored analysis result, and an
analyze run, on its error paths as on success, never clears or modifies the
stored fuzz outcome. -/
theorem C9_cross_substate_frame :
    ∀ (s : SessionState) (rf : FuzzNet) (s2 : SessionState) (ra : AnalyzeNet),
    (runFuzzingTests s rf).1.analysisResult = s.analysisResult ∧
    (analyzeCodeRun s2 ra).1.fuzzingResult = s2.fuzzingResult := by
  intro s rf s2 ra
  constructor
  · by_cases h : s.repoUrl = ""
    · simp [runFuzzingTests, h]
    · cases rf <;> simp [runFuzzingTests, h]
  · by_cases h : s2.repoUrl = ""
    · simp [analyzeCodeRun, h]
    · cases ra <;> simp [analyzeCodeRun, h]

/-- C10: a failed fetchRepoContents run, whether a network error, a non-2xx
status, an empty body or an unparsable body, leaves currentPath at its prior
value; only a successfully parsed response moves it to the requested path. -/
theorem C10_failed_list_preserves_path :
    ∀ (s : SessionState) (ru p m text : String) (status : Nat)
      (data : RepoContentsResponse),
    (fetchRepoContents s ru p (ContentsNet.netError m)).currentPath =
      s.currentPath ∧
    (fetchRepoContents s ru p (ContentsNet.httpError status text)).currentPath =
      s.currentPath ∧
    (fetchRepoContents s ru p ContentsNet.emptyBody).currentPath =
      s.currentPath ∧
    (fetchRepoContents s ru p ContentsNet.badJson).currentPath =
      s.currentPath ∧
    (fetchRepoContents s ru p (ContentsNet.parsed data)).currentPath = p := by
  intro s ru p m text status data
  exact ⟨rfl, rfl, rfl, rfl, rfl⟩

/-- An up-navigation run never touches the ingestion result slot. -/
lemma clickUpStep_result (s : SessionState) (r : ContentsNet) :
    (clickUpStep s r).1.result = s.result := by
  unfold clickUpStep
  cases h : navigateUpRequest s with
  | none => rfl
  | some pp => exact fetchRepoContents_result s s.repoUrl pp r

/-- With an empty listing slot the listing panel is not rendered. -/
lemma contentsShown_of_none (s : SessionState) (h : s.contentsResult = none) :
    contentsShown s = false := by
  unfold contentsShown
  rw [h]

/-- Invariant of all reachable component states: a listing is present only
when the stored ingestion result passed the gate with is_anchor_project true.
Whenever the stored result does not carry is_anchor_project true, the listing
slot is empty, so the browsing controls are not rendered. -/
lemma reachable_contents_gate (s : SessionState) (hreach : Reachable s) :
    ∀ res, s.result = some res → res.is_anchor_project ≠ some true →
      s.contentsResult = none := by
  induction hreach with
  | init => intro res hres _; exact Option.noConfusion hres
  | next s s2 e ops hr hstep ih =>
      cases e with
      | setRepoUrl u =>
          simp only [step] at hstep
          injection hstep with h
          injection h with h1 h2
          subst h1
          intro res hres hne
          exact ih res hres hne
      | setInstructionName n =>
          simp only [step] at hstep
          injection hstep with h
          injection h with h1 h2
          subst h1
          intro res hres hne
          exact ih res hres hne
      | setTimeoutSeconds t =>
          simp only [step] at hstep
          injection hstep with h
          injection h with h1 h2
          subst h1
          intro res hres hne
          exact ih res hres hne
      | submit r cr =>
          simp only [step] at hstep
          split at hstep
          · cases hstep
          · injection hstep with h
            injection h with h1 h2
            subst h1
            simp only [handleSubmit]
            by_cases hf : (ingestFinish (handleSubmitReset s) r).2 = true
            · rw [if_pos hf]
              intro res hres hne
              rw [fetchRepoContents_result] at hres
              obtain ⟨data, hd, hsu, hia⟩ := ingestFinish_issued_result _ r hf
              rw [hd] at hres
              injection hres with hdr
              subst hdr
              exact absurd hia hne
            · rw [if_neg hf]
              intro _ _ _
              rw [ingestFinish_contentsResult]
              rfl
      | clickAnalyze r =>
          simp only [step] at hstep
          split at hstep
          · injection hstep with h
            injection h with h1 h2
            subst h1
            intro res hres hne
            rw [analyzeCodeRun_result] at hres
            rw [analyzeCodeRun_contentsResult]
            exact ih res hres hne
          · cases hstep
      | clickFuzz r =>
          simp only [step] at hstep
          split at hstep
          · injection hstep with h
            injection h with h1 h2
            subst h1
            intro res hres hne
            rw [runFuzzingTests_result] at hres
            rw [runFuzzingTests_contentsResult]
            exact ih res hres hne
          · cases hstep
      | clickEntry p r =>
          simp only [step] at hstep
          split at hstep
          · rename_i hshown
            injection hstep with h
            injection h with h1 h2
            subst h1
            intro res hres hne
            rw [fetchRepoContents_result] at hres
            have hnone := ih res hres hne
            rw [contentsShown_of_none s hnone] at hshown
            simp at hshown
          · cases hstep
      | clickUp r =>
          simp only [step] at hstep
          split at hstep
          · rename_i hshown
            injection hstep with h
            injection h with h1 h2
            subst h1
            intro res hres hne
            rw [clickUpStep_result] at hres
            have hnone := ih res hres hne
            rw [contentsShown_of_none s hnone] at hshown
            cases hshown
          · cases hstep

/-- Concrete session states for the gating scenarios. -/
def c3xS1 : SessionState :=
  { initialState with repoUrl := "https://github.com/acme/vault" }

/-- Repository metadata present in the gating counterexample payload, so the
result block renders (result.repo.name resolves) and the controls inside it
appear. -/
def c3xRepo : GitHubRepo :=
  { id := 1, name := "vault", full_name := "acme/vault", description := none,
    html_url := "https://github.com/acme/vault", stargazers_count := 42,
    forks_count := 7, open_issues_count := 3, owner_login := "acme",
    owner_avatar_url := none, language := some "Rust",
    created_at := "2024-01-01T00:00:00Z", updated_at := "2024-06-01T00:00:00Z" }

/-- A 2xx ingestion body whose domain status is failure while the repository
resolved and the project classification is positive. -/
def c3xData : RepoIngestionResponse :=
  { success := false, message := "rate limited", repo := some c3xRepo,
    is_anchor_project := some true }

/-- The session after submitting c3xS1 and receiving c3xData with a 2xx
status. -/
def c3xState : SessionState :=
  { initialState with repoUrl := "https://github.com/acme/vault",
                      result := some c3xData }

/-- C3 counterexample: the claim counts a result with success false among the
ineligible classifications and says none of list, analyze, fuzz can then be
invoked. The analyze and fuzz controls are rendered whenever the stored
result carries a repo (so the block renders) and a true is_anchor_project,
regardless of success: in the reachable session c3xState, whose stored
ingestion result has success false, clicking analyze dispatches the analyze
operation. -/
theorem C3_counterexample :
    Reachable c3xState ∧
    c3xState.result = some c3xData ∧
    c3xData.success = false ∧
    stepOps c3xState (Event.clickAnalyze AnalyzeNet.emptyBody) =
      [Op.analyzeCall] := by
  refine ⟨?_, rfl, rfl, by decide⟩
  have h1 : Reachable c3xS1 :=
    Reachable.next initialState c3xS1
      (Event.setRepoUrl "https://github.com/acme/vault") [] Reachable.init
      (by decide)
  exact Reachable.next c3xS1 c3xState
    (Event.submit (IngestNet.parsed true c3xData) ContentsNet.emptyBody)
    [Op.ingestCall] h1 (by decide)

/-- C3 amended: the code gates the pipeline on is_anchor_project alone, never
on success. In every reachable session whose stored ingestion result does not
carry is_anchor_project true, no event other than submitting a new repository
can dispatch any boundary operation: list, analyze and fuzz are all
unreachable. The claim fails only for ineligible-by-success results (success
false with a resolved repo and is_anchor_project true), which do expose
analyze and fuzz. -/
theorem C3_gating_amended :
    ∀ (s : SessionState) (res : RepoIngestionResponse) (e : Event),
    Reachable s → s.result = some res → res.is_anchor_project ≠ some true →
    (∀ ir cr, e ≠ Event.submit ir cr) → stepOps s e = [] := by
  intro s res e hreach hres hanchor hnotsubmit
  have hA : anchorShown s = false := by
    have h2 : (res.is_anchor_project == some true) = false :=
      beq_eq_false_iff_ne.mpr hanchor
    unfold anchorShown
    rw [hres]
    simp [h2]
  have hC : s.contentsResult = none :=
    reachable_contents_gate s hreach res hres hanchor
  cases e with
  | setRepoUrl u => rfl
  | setInstructionName n => rfl
  | setTimeoutSeconds t => rfl
  | submit r cr => exact absurd rfl (hnotsubmit r cr)
  | clickAnalyze r => simp [stepOps, step, hA]
  | clickFuzz r => simp [stepOps, step, hA]
  | clickEntry p r => simp [stepOps, step, contentsShown_of_none s hC]
  | clickUp r => simp [stepOps, step, contentsShown_of_none s hC]

/-- Repository metadata of the witness payload: the repository resolved, so
the result block renders and shows the not-an-Anchor-project banner. -/
def c3wRepo : GitHubRepo :=
  { id := 2, name := "plainrepo", full_name := "acme/plainrepo",
    description := none, html_url := "https://github.com/acme/plainrepo",
    stargazers_count := 5, forks_count := 1, open_issues_count := 0,
    owner_login := "acme", owner_avatar_url := none, language := some "Go",
    created_at := "2024-02-01T00:00:00Z", updated_at := "2024-05-01T00:00:00Z" }

/-- A successful ingestion body classified as not an Anchor project. -/
def c3wData : RepoIngestionResponse :=
  { success := true, message := "Repository ingested", repo := some c3wRepo,
    is_anchor_project := some false }

/-- The session after submitting a repository classified as not an Anchor
project. -/
def c3wState : SessionState :=
  { initialState with repoUrl := "https://github.com/acme/plainrepo",
                      result := some c3wData }

/-- Witness for the amended gating theorem: in the reachable session holding
a not-an-Anchor-project result, clicking fuzz dispatches nothing. -/
theorem C3_gating_amended_witness :
    stepOps c3wState (Event.clickFuzz (FuzzNet.netError "x")) = [] := by
  have h1 : Reachable ({ initialState with
      repoUrl := "https://github.com/acme/plainrepo" } : SessionState) :=
    Reachable.next initialState _
      (Event.setRepoUrl "https://github.com/acme/plainrepo") [] Reachable.init
      (by decide)
  have h2 : Reachable c3wState :=
    Reachable.next _ c3wState
      (Event.submit (IngestNet.parsed true c3wData) ContentsNet.emptyBody)
      [Op.ingestCall] h1 (by decide)
  exact C3_gating_amended c3wState c3wData
    (Event.clickFuzz (FuzzNet.netError "x")) h2 rfl (by decide)
    (by intro ir cr h; cases h)

/-- The split of a character list is never empty. -/
lemma splitSlash_ne_nil (cs : List Char) : splitSlash cs ≠ [] := by
  induction cs with
  | nil => simp [splitSlash]
  | cons c rest ih =>
      simp only [splitSlash]
      split
      · simp
      · split
        · simp
        · simp

/-- No segment produced by the split contains the separator. -/
lemma splitSlash_no_slash (cs : List Char) :
    ∀ seg ∈ splitSlash cs, '/' ∉ seg := by
  induction cs with
  | nil =>
      intro seg hseg
      simp only [splitSlash, List.mem_singleton] at hseg
      subst hseg
      simp
  | cons c rest ih =>
      intro seg hseg
      simp only [splitSlash] at hseg
      by_cases hc : c = '/'
      · rw [if_pos hc] at hseg
        rcases List.mem_cons.mp hseg with h | h
        · subst h; simp
        · exact ih seg h
      · rw [if_neg hc] at hseg
        cases hr : splitSlash rest with
        | nil => exact absurd hr (splitSlash_ne_nil rest)
        | cons hd tl =>
            rw [hr] at hseg
            rcases List.mem_cons.mp hseg with h | h
            · subst h
              intro hmem
              rcases List.mem_cons.mp hmem with h2 | h2
              · exact hc h2.symm
              · exact ih hd (by rw [hr]; exact List.mem_cons_self hd tl) h2
            · exact ih seg (by rw [hr]; exact List.mem_cons_of_mem hd h)

/-- Splitting after prepending separator-free characters prepends them to the
first segment. -/
lemma splitSlash_append (xs zs : List Char) (hxs : ∀ c ∈ xs, c ≠ '/')
    (hd : List Char) (tl : List (List Char)) (hz : splitSlash zs = hd :: tl) :
    splitSlash (xs ++ zs) = (xs ++ hd) :: tl := by
  induction xs with
  | nil => simpa using hz
  | cons x xs ih =>
      have hx : x ≠ '/' := hxs x (List.mem_cons_self x xs)
      have hxs2 : ∀ c ∈ xs, c ≠ '/' := fun c hc => hxs c (List.mem_cons_of_mem x hc)
      have hrec := ih hxs2
      simp only [List.cons_append, splitSlash, if_neg hx]
      rw [show splitSlash (List.append xs zs) = (xs ++ hd) :: tl from hrec]

/-- The split of a join recovers the segments, provided there is at least one
and none contains the separator. -/
lemma splitSlash_joinSlash :
    ∀ segs : List (List Char), segs ≠ [] →
      (∀ seg ∈ segs, ∀ c ∈ seg, c ≠ '/') → splitSlash (joinSlash segs) = segs
  | [], hne, _ => absurd rfl hne
  | [seg], _, hns => by
      have h := splitSlash_append seg [] (fun c hc => hns seg (by simp) c hc)
        [] [] rfl
      simpa [joinSlash] using h
  | seg :: seg2 :: rest2, _, hns => by
      have ihr := splitSlash_joinSlash (seg2 :: rest2) (by simp)
        (fun sg hsg c hc => hns sg (List.mem_cons_of_mem seg hsg) c hc)
      have hz : splitSlash ('/' :: joinSlash (seg2 :: rest2))
          = [] :: (seg2 :: rest2) := by
        simp [splitSlash, ihr]
      have h := splitSlash_append seg ('/' :: joinSlash (seg2 :: rest2))
        (fun c hc => hns seg (by simp) c hc) [] (seg2 :: rest2) hz
      simpa [joinSlash] using h

/-- For a path of at least two segments, the parent computed by navigateUp
has exactly the segments of the path minus the last one. -/
lemma dropLastSegment_segments (p : String)
    (h2 : 2 ≤ (splitSlash p.data).length) :
    splitSlash (dropLastSegment p).data = (splitSlash p.data).dropLast := by
  unfold dropLastSegment
  show splitSlash (joinSlash ((splitSlash p.data).dropLast))
      = (splitSlash p.data).dropLast
  apply splitSlash_joinSlash
  · have hlen := List.length_dropLast (splitSlash p.data)
    intro hnil
    rw [hnil] at hlen
    simp at hlen
    omega
  · intro seg hseg c hc
    have hmem : seg ∈ splitSlash p.data :=
      (List.dropLast_sublist (splitSlash p.data)).subset hseg
    intro he
    exact splitSlash_no_slash p.data seg hmem (he ▸ hc)

/-- C8: up-navigation. At the root (empty currentPath) navigateUp returns
before any request and before any state change; otherwise it issues exactly
one listing request for the parent path obtained by splitting on the slash,
popping the last segment and joining; and for a path of at least two
segments that parent has precisely the segments of the current path minus
the last. -/
theorem C8_navigateUp_parent :
    ∀ (s : SessionState) (r : ContentsNet),
    (s.currentPath = "" → clickUpStep s r = (s, none)) ∧
    (s.currentPath ≠ "" →
      (clickUpStep s r).2 = some (dropLastSegment s.currentPath) ∧
      (clickUpStep s r).1 =
        fetchRepoContents s s.repoUrl (dropLastSegment s.currentPath) r) ∧
    (2 ≤ (splitSlash s.currentPath.data).length →
      splitSlash (dropLastSegment s.currentPath).data =
        (splitSlash s.currentPath.data).dropLast) := by
  intro s r
  refine ⟨?_, ?_, dropLastSegment_segments s.currentPath⟩
  · intro h
    simp [clickUpStep, navigateUpRequest, h]
  · intro h
    unfold clickUpStep navigateUpRequest
    rw [if_neg h]
    exact ⟨rfl, rfl⟩

/-- Session browsing at the root directory. -/
def c8Root : SessionState :=
  { initialState with repoUrl := "https://github.com/acme/vault" }

/-- Session browsing two levels deep. -/
def c8Deep : SessionState :=
  { initialState with repoUrl := "https://github.com/acme/vault",
                      currentPath := "src/app" }

/-- Witness for C8: from the root, up-navigation is a no-op with no request;
from src/app it issues exactly a request for src, and the segment
characterization holds there. -/
theorem C8_navigateUp_parent_witness :
    clickUpStep c8Root ContentsNet.emptyBody = (c8Root, none) ∧
    (clickUpStep c8Deep ContentsNet.emptyBody).2 = some "src" ∧
    splitSlash (dropLastSegment c8Deep.currentPath).data =
      (splitSlash c8Deep.currentPath.data).dropLast := by
  refine ⟨?_, ?_, ?_⟩
  · exact (C8_navigateUp_parent c8Root ContentsNet.emptyBody).1 rfl
  · have h := ((C8_navigateUp_parent c8Deep ContentsNet.emptyBody).2.1
      (by decide)).1
    exact h.trans (by decide)
  · exact (C8_navigateUp_parent c8Deep ContentsNet.emptyBody).2.2 (by decide)

/-- Whether an analyzeCode outcome takes the catch path. -/
def isAnalyzeFailure : AnalyzeNet → Bool
  | .parsed _ => false
  | _ => true

/-- C6: a successful scan with zero findings is stored as a success (the
parsed payload itself, with success true and its server message), while any
errored scan is stored as the fallback with success false; the two stored
states are distinct even though both carry an empty bug list. -/
theorem C6_zero_findings_distinct :
    ∀ (s s2 : SessionState) (msg : String) (e : AnalyzeNet),
    s.repoUrl ≠ "" → s2.repoUrl ≠ "" → isAnalyzeFailure e = true →
    (analyzeCodeRun s (AnalyzeNet.parsed
        { success := true, message := msg, bugs := some [] })).1.analysisResult
      = some { success := true, message := msg, bugs := some [] } ∧
    (analyzeCodeRun s2 e).1.analysisResult
      = some { success := false,
               message := strOr (analyzeThrownMsg e) "Failed to analyze code",
               bugs := some [] } ∧
    (analyzeCodeRun s (AnalyzeNet.parsed
        { success := true, message := msg, bugs := some [] })).1.analysisResult
      ≠ (analyzeCodeRun s2 e).1.analysisResult := by
  intro s s2 msg e h1 h2 hf
  have hA : (analyzeCodeRun s (AnalyzeNet.parsed
      { success := true, message := msg, bugs := some [] })).1.analysisResult
      = some { success := true, message := msg, bugs := some [] } := by
    simp [analyzeCodeRun, h1]
  have hB : (analyzeCodeRun s2 e).1.analysisResult
      = some { success := false,
               message := strOr (analyzeThrownMsg e) "Failed to analyze code",
               bugs := some [] } := by
    cases e with
    | netError m => simp [analyzeCodeRun, h2, analyzeThrownMsg]
    | httpError status text => simp [analyzeCodeRun, h2, analyzeThrownMsg]
    | emptyBody => simp [analyzeCodeRun, h2, analyzeThrownMsg]
    | badJson => simp [analyzeCodeRun, h2, analyzeThrownMsg]
    | parsed data => simp [isAnalyzeFailure] at hf
  refine ⟨hA, hB, ?_⟩
  rw [hA, hB]
  simp

/-- Session about to run the analysis. -/
def c6State : SessionState :=
  { initialState with repoUrl := "https://github.com/acme/vault" }

/-- Witness for C6: a clean successful scan and an empty-body failure are
stored with success true and false respectively. -/
theorem C6_zero_findings_distinct_witness :
    (analyzeCodeRun c6State (AnalyzeNet.parsed
        { success := true, message := "Code analysis completed",
          bugs := some [] })).1.analysisResult
      = some { success := true, message := "Code analysis completed",
               bugs := some [] } ∧
    (analyzeCodeRun c6State AnalyzeNet.emptyBody).1.analysisResult
      = some { success := false, message := "Empty response from server",
               bugs := some [] } := by
  have h := C6_zero_findings_distinct c6State c6State "Code analysis completed"
    AnalyzeNet.emptyBody (by decide) (by decide) (by decide)
  exact ⟨h.1, h.2.1.trans (by decide)⟩

/-- C7: hash round-trip. For every report byte sequence, the SHA-256 digest
computed locally (lowercase hexadecimal) equals the hash field returned by
the log-report endpoint, which hashes the exact submitted bytes with no
normalization. -/
theorem C7_hash_round_trip :
    ∀ (report : List Nat) (ledgerSig : String),
    sha256Hex report = (logReport report ledgerSig).hash := by
  intro report ledgerSig
  rfl

set_option maxRecDepth 10000 in
/-- Validation of the SHA-256 model against the documented example: the
backend documentation shows hash a591a6d40... for its sample report, the
SHA-256 of the bytes of Hello World. -/
theorem sha256Hex_hello_world :
    sha256Hex (asciiBytes "Hello World") =
      "a591a6d40bf420404a011733cfb7b190d62c65bf0bcda32b57b277d9ad9f146e" := by
  decide

end Safex
